import Mathlib

/-!
# Hexagonal spatial aggregation subsystem: shallow embedding

This file embeds the hexagonal-grid aggregation core of the Spain forest-fires
repository in Lean 4 and proves the specification claims about it.

Conventions of the embedding:
* TypeScript `number` values carrying areas, coordinates and zoom levels are
  modelled as `ℚ` (exact arithmetic; "within floating-point tolerance" in the
  spec becomes exact equality of rationals).
* H3 cell indexes are `String`s.
* The h3-js library functions (`polygonToCells`, `latLngToCell`,
  `cellToBoundary`) are external dependencies; every embedded operation takes
  them as explicit function parameters, so theorems quantify over the
  library's behaviour.  Where the frontend wraps `polygonToCells` in
  `try/catch`, the parameter returns an `Option` (`none` = the call threw).
* JavaScript objects used as string-keyed dictionaries are modelled as
  association lists `List (String × _)` (insertion ordered, unique keys), and
  the frontend's pre-initialized `Map` keyed by the grid's cells is modelled
  as a total function `String → CellAgg` guarded by grid membership, exactly
  as the code guards every update with a `hexagonFireMap.get(...)` lookup.
-/

/-- Fire-size classes used by both frontend and backend
(`'small' | 'medium' | 'large' | 'none'`). -/
inductive FireSize where
  | small
  | medium
  | large
  | none
deriving DecidableEq, Repr

/-- A MultiPolygon's coordinates: list of polygons, each a list of rings,
each ring a list of coordinate pairs (as stored: `[lng, lat]`).
Models `shape.coordinates : number[][][][]` of `FireData`. -/
abbrev Shape := List (List (List (ℚ × ℚ)))

/-- A fire record, restricted to the fields the aggregation core reads
(`types/index.ts`): `id`, optional polygon `shape.coordinates`, `centroid`
as a `[lng, lat]` pair, and `area_ha`. -/
structure FireData where
  id : ℕ
  shape : Option Shape
  centroid : ℚ × ℚ
  area_ha : ℚ
deriving DecidableEq, Repr

namespace UseFireData

/-- `getFireSize` from `useFireData.ts` (identical to
`CumulatedFireService.getFireSize`): `<10 → small`, `<100 → medium`,
otherwise `large`. -/
def getFireSize (area : ℚ) : FireSize :=
  if area < 10 then FireSize.small
  else if area < 100 then FireSize.medium
  else FireSize.large

/-- Per-cell aggregate accumulated in `hexagonFireMap` of
`addFireDataToMap`: running area, fire count, contributing fires. -/
structure CellAgg where
  totalArea : ℚ
  fireCount : ℕ
  fires : List FireData
deriving DecidableEq, Repr

/-- The zero aggregate every grid cell is initialized with. -/
def CellAgg.zero : CellAgg := ⟨0, 0, []⟩

/-- The frontend's `hexagonFireMap`, as a total function (meaningful on the
grid's cells; all updates are guarded by grid membership). -/
abbrev CellMap := String → CellAgg

/-- Add one fire's contribution `amt` to cell `c` of the map
(`totalArea += amt; fireCount += 1; fires.push(fire)`). -/
def addContribution (m : CellMap) (c : String) (amt : ℚ) (fire : FireData) :
    CellMap :=
  fun x =>
    if x = c then
      ⟨(m c).totalArea + amt, (m c).fireCount + 1, (m c).fires ++ [fire]⟩
    else m x

/-- The coordinate swap of `addFireDataToMap`: every `[lng, lat]` pair of the
MultiPolygon becomes `[lat, lng]` for h3-js. -/
def swapShapeCoords (s : Shape) : Shape :=
  s.map (fun poly => poly.map (fun ring => ring.map (fun c => (c.2, c.1))))

/-- The loop body over `intersectingHexagons`: each listed cell that is
present in the grid receives `amt` (the even split) and a fire-count
increment; cells absent from the grid are skipped. -/
def distributeToCells (grid : List String) (amt : ℚ) (fire : FireData)
    (cs : List String) (m : CellMap) : CellMap :=
  cs.foldl (fun m c => if c ∈ grid then addContribution m c amt fire else m) m

/-- Centroid binning (`latLngToCell(lat, lng, res)` on the record's centroid,
full `area_ha` attributed when the cell is in the grid). -/
def binFireCentroid (latLngToCell : ℚ → ℚ → ℤ → String) (grid : List String)
    (res : ℤ) (m : CellMap) (fire : FireData) : CellMap :=
  let lng := fire.centroid.1
  let lat := fire.centroid.2
  let h3 := latLngToCell lat lng res
  if h3 ∈ grid then addContribution m h3 fire.area_ha fire else m

/-- One iteration of the `fires.forEach` loop of `addFireDataToMap`:
polygon records go through `polygonToCells` and an even `area_ha / N` split
over the intersecting cells; records without usable polygon coordinates, or
whose `polygonToCells` call throws (`polyToCells ... = none`), fall back to
centroid binning. -/
def binFire (polyToCells : Shape → ℤ → Option (List String))
    (latLngToCell : ℚ → ℚ → ℤ → String) (grid : List String) (res : ℤ)
    (m : CellMap) (fire : FireData) : CellMap :=
  match fire.shape with
  | some s =>
    if 0 < s.length then
      match polyToCells (swapShapeCoords s) res with
      | some cs => distributeToCells grid (fire.area_ha / cs.length) fire cs m
      | Option.none => binFireCentroid latLngToCell grid res m fire
    else binFireCentroid latLngToCell grid res m fire
  | Option.none => binFireCentroid latLngToCell grid res m fire

/-- The aggregation phase of `addFireDataToMap`: initialize every grid cell
with the zero aggregate, then fold the fire list through `binFire`. -/
def addFireDataToMap (polyToCells : Shape → ℤ → Option (List String))
    (latLngToCell : ℚ → ℚ → ℤ → String) (grid : List String) (res : ℤ)
    (fires : List FireData) : CellMap :=
  fires.foldl (binFire polyToCells latLngToCell grid res) (fun _ => CellAgg.zero)

/-- The per-hexagon display properties written back onto the grid features. -/
structure CellProps where
  hasFireData : Bool
  totalArea : ℚ
  fireCount : ℕ
  averageArea : ℚ
  size : FireSize
  fires : List FireData
deriving DecidableEq, Repr

/-- The finalization step of `addFireDataToMap`: a cell with
`fireCount > 0` gets `size = getFireSize(totalArea)`; otherwise all fire
properties are reset and `size = 'none'`. -/
def finalizeCell (agg : CellAgg) : CellProps :=
  if 0 < agg.fireCount then
    ⟨true, agg.totalArea, agg.fireCount, agg.totalArea / agg.fireCount,
      getFireSize agg.totalArea, agg.fires⟩
  else ⟨false, 0, 0, 0, FireSize.none, []⟩

end UseFireData

namespace UseHexagonGrid

/-- `getResolutionForZoom` from `useHexagonGrid.ts`:
`zoom < 9 → 6`, otherwise `7`. -/
def getResolutionForZoom (zoom : ℚ) : ℤ :=
  if zoom < 9 then 6 else 7

end UseHexagonGrid

namespace CumulatedFireService

/-- `CumulatedFireService.getFireSize` (`cumulatedFireService.ts`):
identical thresholds to the frontend copy. -/
def getFireSize (area : ℚ) : FireSize :=
  if area < 10 then FireSize.small
  else if area < 100 then FireSize.medium
  else FireSize.large

/-- One value of the backend's `hexagonData` object:
`{totalArea, fireCount, fires, size}` (fires stored as id strings,
`fire.id.toString()`). -/
structure HexEntry where
  totalArea : ℚ
  fireCount : ℕ
  fires : List String
  size : FireSize
deriving DecidableEq, Repr

/-- Key lookup in the `hexagonData` object, modelled as an insertion-ordered
association list. -/
def lookupEntry : List (String × HexEntry) → String → Option HexEntry
  | [], _ => Option.none
  | p :: t, k => if p.1 = k then some p.2 else lookupEntry t k

/-- The in-place mutation `hexagonData[h3].totalArea += A;
fireCount += 1; fires.push(fid)` applied to the association list (only the
entry keyed `h3` changes). -/
def updateEntries (h3 : String) (a : ℚ) (fid : String)
    (hd : List (String × HexEntry)) : List (String × HexEntry) :=
  hd.map (fun p =>
    if p.1 = h3 then
      (p.1, ⟨p.2.totalArea + a, p.2.fireCount + 1, p.2.fires ++ [fid], p.2.size⟩)
    else p)

/-- `CumulatedFireService.addFireToHexagonByCentroid`: resolve the record's
centroid to one cell via `latLngToCell(lat, lng, res)`, create the zero entry
if the key is new, then `totalArea += area_ha; fireCount += 1;
fires.push(id.toString())`.  The record's polygon is never consulted. -/
def addFireToHexagonByCentroid (latLngToCell : ℚ → ℚ → ℤ → String) (res : ℤ)
    (fire : FireData) (hexagonData : List (String × HexEntry)) :
    List (String × HexEntry) :=
  let lng := fire.centroid.1
  let lat := fire.centroid.2
  let h3 := latLngToCell lat lng res
  if (lookupEntry hexagonData h3).isSome then
    updateEntries h3 fire.area_ha (toString fire.id) hexagonData
  else
    hexagonData ++ [(h3, ⟨fire.area_ha, 1, [toString fire.id], FireSize.none⟩)]

/-- The backend's cumulated aggregation result (`CumulatedFireData`),
restricted to the fields the claims are about (`dateRange` is carried
through unchanged and elided). -/
structure CumulatedFireData where
  resolution : ℤ
  hexagonData : List (String × HexEntry)
  totalFires : ℕ
  totalArea : ℚ
deriving DecidableEq, Repr

/-- The core of `CumulatedFireService.calculateCumulatedFireData` for an
already-gathered record list: one loop over the fires that (a) bins every
record by its centroid (the code's "use centroid method for now"),
(b) increments `totalFires` and (c) adds `area_ha` to `totalArea`; then a
pass assigning each touched hexagon `size = getFireSize(totalArea)`. -/
def calculateCumulatedFireData (latLngToCell : ℚ → ℚ → ℤ → String) (res : ℤ)
    (fires : List FireData) : CumulatedFireData :=
  let st := fires.foldl
    (fun (acc : List (String × HexEntry) × ℕ × ℚ) fire =>
      (addFireToHexagonByCentroid latLngToCell res fire acc.1,
        acc.2.1 + 1, acc.2.2 + fire.area_ha))
    ([], 0, 0)
  let tagged := st.1.map (fun p =>
    (p.1, { p.2 with size := getFireSize p.2.totalArea }))
  ⟨res, tagged, st.2.1, st.2.2⟩

/-- Sum of the per-hexagon fire counts of a `hexagonData` object. -/
def sumCounts (hd : List (String × HexEntry)) : ℕ :=
  (hd.map (fun p => p.2.fireCount)).sum

/-- Sum of the per-hexagon total areas of a `hexagonData` object. -/
def sumAreas (hd : List (String × HexEntry)) : ℚ :=
  (hd.map (fun p => p.2.totalArea)).sum

end CumulatedFireService

namespace HexagonGridService

/-- `getResolutionForZoom` from `hexagonGridService.ts`
(the backend copy of the zoom-to-resolution policy). -/
def getResolutionForZoom (zoom : ℚ) : ℤ :=
  if zoom < 9 then 6 else 7

/-- One entry of `HexagonGrid.hexagons`: an H3 index together with the
boundary returned by `cellToBoundary(index, false)` — a vertex ring of
`[lat, lng]` pairs which h3-js does NOT close (the first vertex is repeated
at the end only when `formatAsGeoJson` is `true`). -/
structure Hexagon where
  index : String
  boundary : List (ℚ × ℚ)
deriving DecidableEq, Repr

/-- A generated grid (`HexagonGrid`), restricted to the fields the claims
are about; the `metadata` timestamp and echoed bounds are elided. -/
structure HexagonGrid where
  resolution : ℤ
  hexagons : List Hexagon
deriving DecidableEq, Repr

/-- A viewport bounding box. -/
structure Viewport where
  north : ℚ
  south : ℚ
  east : ℚ
  west : ℚ
deriving DecidableEq, Repr

/-- The viewport polygon built by `generateHexagonGridForViewport`
(`[lat, lng]` vertices, explicitly closed). -/
def viewportPolygon (v : Viewport) : List (List (ℚ × ℚ)) :=
  [[(v.south, v.west), (v.south, v.east), (v.north, v.east),
    (v.north, v.west), (v.south, v.west)]]

/-- The Spain coverage polygon of `generateHexagonGridForSpain`, from
`SPAIN_BOUNDS` (north 44.0, south 35.8, east 3.5, west −9.5). -/
def spainPolygon : List (List (ℚ × ℚ)) :=
  [[(35.8, -9.5), (35.8, 3.5), (44.0, 3.5), (44.0, -9.5), (35.8, -9.5)]]

/-- `generateHexagonGridForViewport`: cover the viewport polygon with
`polygonToCells`, then attach each cell's `cellToBoundary(index, false)`
ring.  `polyToCells` and `cellToBoundary` are the h3-js library calls. -/
def generateHexagonGridForViewport
    (polyToCells : List (List (ℚ × ℚ)) → ℤ → List String)
    (cellToBoundary : String → List (ℚ × ℚ)) (res : ℤ) (v : Viewport) :
    HexagonGrid :=
  let hexagonIndexes := polyToCells (viewportPolygon v) res
  ⟨res, hexagonIndexes.map (fun i => ⟨i, cellToBoundary i⟩)⟩

/-- `generateHexagonGridForSpain`: same covering over the fixed Spain
polygon. -/
def generateHexagonGridForSpain
    (polyToCells : List (List (ℚ × ℚ)) → ℤ → List String)
    (cellToBoundary : String → List (ℚ × ℚ)) (res : ℤ) : HexagonGrid :=
  let hexagonIndexes := polyToCells spainPolygon res
  ⟨res, hexagonIndexes.map (fun i => ⟨i, cellToBoundary i⟩)⟩

/-- `getHexagonGridForSpain`: reject resolutions outside 0–15 before any
covering work, otherwise serve the cached grid for this resolution or
generate, persist and return a fresh one.  The on-disk JSON cache is
modelled as a map from resolution to grid; the updated cache is returned
alongside the grid (a swallowed write failure would simply leave the cache
argument for the next call unchanged). -/
def getHexagonGridForSpain
    (polyToCells : List (List (ℚ × ℚ)) → ℤ → List String)
    (cellToBoundary : String → List (ℚ × ℚ)) (res : ℤ)
    (cache : ℤ → Option HexagonGrid) :
    Except String (HexagonGrid × (ℤ → Option HexagonGrid)) :=
  if res < 0 ∨ 15 < res then
    Except.error "Invalid resolution. Must be between 0 and 15."
  else
    match cache res with
    | some grid => Except.ok (grid, cache)
    | Option.none =>
      let grid := generateHexagonGridForSpain polyToCells cellToBoundary res
      Except.ok (grid, fun r => if r = res then some grid else cache r)

/-- The viewport cache-key component: one bound rendered with
`toFixed(2)`, modelled as rounding to hundredths. -/
def quantize2 (q : ℚ) : ℤ := round (q * 100)

/-- The viewport cache key `west_south_east_north`, each bound quantized
to two decimals (`getCacheFilePath`). -/
def viewportKey (v : Viewport) : ℤ × ℤ × ℤ × ℤ :=
  (quantize2 v.west, quantize2 v.south, quantize2 v.east, quantize2 v.north)

/-- `getHexagonGridForViewport`: resolution from zoom, then cached grid for
`(resolution, quantized viewport)` or generate-persist-return.  No
resolution validation is performed on this path (the resolution always
comes from `getResolutionForZoom`). -/
def getHexagonGridForViewport
    (polyToCells : List (List (ℚ × ℚ)) → ℤ → List String)
    (cellToBoundary : String → List (ℚ × ℚ)) (zoom : ℚ) (v : Viewport)
    (cache : ℤ × (ℤ × ℤ × ℤ × ℤ) → Option HexagonGrid) :
    HexagonGrid × (ℤ × (ℤ × ℤ × ℤ × ℤ) → Option HexagonGrid) :=
  let res := getResolutionForZoom zoom
  match cache (res, viewportKey v) with
  | some grid => (grid, cache)
  | Option.none =>
    let grid := generateHexagonGridForViewport polyToCells cellToBoundary res v
    (grid, fun k => if k = (res, viewportKey v) then some grid else cache k)

/-- One emitted GeoJSON feature of `getHexagonGridAsGeoJSON`: the Polygon
`coordinates` (a single ring) plus the `h3Index`/`resolution` properties. -/
structure Feature where
  coordinates : List (List (ℚ × ℚ))
  h3Index : String
  resolution : ℤ
deriving DecidableEq, Repr

/-- The feature built for one hexagon: the stored `[lat, lng]` boundary with
each pair swapped to `[lng, lat]` ("Swap lat/lng to lng/lat for GeoJSON").
No closing vertex is appended. -/
def hexagonFeature (res : ℤ) (h : Hexagon) : Feature :=
  ⟨[h.boundary.map (fun coord => (coord.2, coord.1))], h.index, res⟩

/-- The feature list of the emitted FeatureCollection. -/
def gridFeatures (grid : HexagonGrid) : List Feature :=
  grid.hexagons.map (hexagonFeature grid.resolution)

/-- `getHexagonGridAsGeoJSON` on the viewport path: fetch the (possibly
cached) grid for the zoom level and viewport, then emit its features. -/
def getHexagonGridAsGeoJSON
    (polyToCells : List (List (ℚ × ℚ)) → ℤ → List String)
    (cellToBoundary : String → List (ℚ × ℚ)) (zoom : ℚ) (v : Viewport)
    (cache : ℤ × (ℤ × ℤ × ℤ × ℤ) → Option HexagonGrid) :
    List Feature × (ℤ × (ℤ × ℤ × ℤ × ℤ) → Option HexagonGrid) :=
  let r := getHexagonGridForViewport polyToCells cellToBoundary zoom v cache
  (gridFeatures r.1, r.2)

end HexagonGridService

namespace CumulatedFireRoutes

/-- The `YYYY-MM-DD` check of `GET /api/cumulated-fires`
(`/^\d\x7b4\x7d-\d\x7b2\x7d-\d\x7b2\x7d$/`). -/
def isValidDateFormat (s : String) : Bool :=
  match s.toList with
  | [a, b, c, d, e, f, g, h, i, j] =>
    a.isDigit && b.isDigit && c.isDigit && d.isDigit && e = Char.ofNat 45 &&
    f.isDigit && g.isDigit && h = Char.ofNat 45 && i.isDigit && j.isDigit
  | _ => false

/-- The handler of `GET /api/cumulated-fires` after query-string parsing:
reject malformed dates, then reject resolutions outside 0–15, and only then
run the cumulated aggregation over the records of the range (the day-by-day
Record Store read is abstracted as the `fires` argument). -/
def cumulatedFiresRoute (latLngToCell : ℚ → ℚ → ℤ → String)
    (startDate endDate : String) (res : ℤ) (fires : List FireData) :
    Except String CumulatedFireService.CumulatedFireData :=
  if ¬ (isValidDateFormat startDate ∧ isValidDateFormat endDate) then
    Except.error "Invalid date format. Use YYYY-MM-DD"
  else if res < 0 ∨ 15 < res then
    Except.error "Invalid resolution. Must be between 0 and 15"
  else
    Except.ok (CumulatedFireService.calculateCumulatedFireData
      latLngToCell res fires)

end CumulatedFireRoutes

/-! ## Claim theorems -/

namespace UseFireData

/-- Pointwise effect of the even-split loop over `intersectingHexagons`:
each cell of `cs` that lies in the grid gains `amt` and one fire count;
every other cell is untouched. -/
theorem distributeToCells_apply (grid : List String) (amt : ℚ) (fire : FireData) :
    ∀ (cs : List String), cs.Nodup → ∀ (m : CellMap) (x : String),
      (distributeToCells grid amt fire cs m x).totalArea
        = (m x).totalArea + (if x ∈ cs ∧ x ∈ grid then amt else 0) ∧
      (distributeToCells grid amt fire cs m x).fireCount
        = (m x).fireCount + (if x ∈ cs ∧ x ∈ grid then 1 else 0) := by
  intro cs
  induction cs with
  | nil => intro _ m x; simp [distributeToCells]
  | cons c t ih =>
    intro hnd m x
    have hct : c ∉ t := (List.nodup_cons.mp hnd).1
    have hstep : distributeToCells grid amt fire (c :: t) m
        = distributeToCells grid amt fire t
          (if c ∈ grid then addContribution m c amt fire else m) := rfl
    rw [hstep]
    obtain ⟨hA, hC⟩ := ih (List.nodup_cons.mp hnd).2
      (if c ∈ grid then addContribution m c amt fire else m) x
    rw [hA, hC]
    by_cases hxc : x = c
    · subst hxc
      by_cases hg : x ∈ grid
      · simp [addContribution, hg, hct]
      · simp [hg, hct]
    · by_cases hg : c ∈ grid
      · simp [addContribution, hxc, hg, List.mem_cons]
      · simp [hxc, hg, List.mem_cons]

/-- Sum over a duplicate-free list of an indicator supported on one listed
element. -/
theorem sum_ite_eq_single (c : String) (d : ℚ) :
    ∀ (grid : List String), grid.Nodup → c ∈ grid →
      (grid.map (fun x => if x = c then d else 0)).sum = d := by
  intro grid
  induction grid with
  | nil => intro _ h; cases h
  | cons a t ih =>
    intro hnd hc
    rcases List.mem_cons.mp hc with h | h
    · subst h
      have hat : c ∉ t := (List.nodup_cons.mp hnd).1
      simp only [List.map_cons, List.sum_cons]
      have hz : (t.map (fun x => if x = c then d else 0)).sum = 0 := by
        apply List.sum_eq_zero
        intro y hy
        obtain ⟨x, hx, rfl⟩ := List.mem_map.mp hy
        rw [if_neg]
        intro hxc
        exact hat (hxc ▸ hx)
      rw [hz, add_zero]
      simp
    · have hne : a ≠ c := by
        rintro rfl
        exact (List.nodup_cons.mp hnd).1 h
      simp only [List.map_cons, List.sum_cons, if_neg hne]
      rw [ih (List.nodup_cons.mp hnd).2 h, zero_add]

/-- Sum over a duplicate-free grid of an indicator supported on a
duplicate-free sublist `cs` of grid cells: `|cs|` copies of the value. -/
theorem sum_ite_mem (d : ℚ) :
    ∀ (cs : List String), cs.Nodup → ∀ (grid : List String),
      (∀ c ∈ cs, c ∈ grid) → grid.Nodup →
      (grid.map (fun x => if x ∈ cs then d else 0)).sum = cs.length * d := by
  intro cs
  induction cs with
  | nil => intro _ grid _ _; simp
  | cons c t ih =>
    intro hnd grid hsub hg
    have hct : c ∉ t := (List.nodup_cons.mp hnd).1
    have hpt : ∀ x, (if x ∈ c :: t then d else 0)
        = (if x = c then d else 0) + (if x ∈ t then d else 0) := by
      intro x
      by_cases hxc : x = c
      · subst hxc
        simp [hct]
      · simp [List.mem_cons, hxc]
    calc (grid.map (fun x => if x ∈ c :: t then d else 0)).sum
        = (grid.map (fun x =>
            (if x = c then d else 0) + (if x ∈ t then d else 0))).sum := by
          exact congrArg List.sum (List.map_congr_left (fun a _ => hpt a))
      _ = (grid.map (fun x => if x = c then d else 0)).sum
          + (grid.map (fun x => if x ∈ t then d else 0)).sum := List.sum_map_add
      _ = d + t.length * d := by
          rw [sum_ite_eq_single c d grid hg (hsub c (List.mem_cons_self c t)),
            ih (List.nodup_cons.mp hnd).2 grid
              (fun a ha => hsub a (List.mem_cons_of_mem c ha)) hg]
      _ = (c :: t).length * d := by
          simp only [List.length_cons]
          push_cast
          ring

/-- Sum over any grid list of an indicator of membership in `cs`:
one copy of the value per grid entry that lies in `cs`. -/
theorem sum_ite_count (d : ℚ) (cs : List String) :
    ∀ (grid : List String),
      (grid.map (fun x => if x ∈ cs then d else 0)).sum
        = ((grid.filter (fun x => x ∈ cs)).length : ℚ) * d := by
  intro grid
  induction grid with
  | nil => simp
  | cons a t ih =>
    by_cases hp : a ∈ cs
    · simp only [List.map_cons, List.sum_cons, if_pos hp, List.filter_cons,
        decide_eq_true hp, if_true, ih]
      rw [List.length_cons]
      push_cast
      ring
    · simp only [List.map_cons, List.sum_cons, if_neg hp, List.filter_cons, ih]
      rw [decide_eq_false hp]
      simp

end UseFireData

/-- **C2 (amended).** For a polygon record whose `polygonToCells` set `cs`
is non-empty: (i) each intersecting cell **present in the grid** receives
exactly `area_ha / |cs|` — with no assumption on the other intersecting
cells, so this pins the behaviour on a cropped grid; (ii) the total
attributed over the grid is `k · area_ha / |cs|` where `k` counts the grid
cells lying in `cs`; (iii) hence when every intersecting cell is present in
the grid the total equals `area_ha` exactly.  (The counterexample shows the
unconditional conservation claim fails when an intersecting cell is absent
from a cropped grid.) -/
theorem C2_area_split_conservation (pc : Shape → ℤ → Option (List String))
    (ltc : ℚ → ℚ → ℤ → String) (grid : List String) (res : ℤ)
    (fire : FireData) (s : Shape) (cs : List String)
    (h1 : fire.shape = some s) (h2 : 0 < s.length)
    (h3 : pc (UseFireData.swapShapeCoords s) res = some cs)
    (h4 : cs ≠ []) (h5 : cs.Nodup) (h6 : grid.Nodup) :
    (∀ c ∈ cs, c ∈ grid →
      ((UseFireData.addFireDataToMap pc ltc grid res [fire]) c).totalArea
        = fire.area_ha / cs.length) ∧
    ((grid.map (fun c =>
        ((UseFireData.addFireDataToMap pc ltc grid res [fire]) c).totalArea)).sum
      = ((grid.filter (fun c => c ∈ cs)).length : ℚ) * (fire.area_ha / cs.length)) ∧
    ((∀ c ∈ cs, c ∈ grid) →
      (grid.map (fun c =>
        ((UseFireData.addFireDataToMap pc ltc grid res [fire]) c).totalArea)).sum
        = fire.area_ha) := by
  have hbin : UseFireData.addFireDataToMap pc ltc grid res [fire]
      = UseFireData.distributeToCells grid (fire.area_ha / cs.length) fire cs
        (fun _ => UseFireData.CellAgg.zero) := by
    unfold UseFireData.addFireDataToMap UseFireData.binFire
    simp [h1, h2, h3]
  have hval : ∀ x, ((UseFireData.addFireDataToMap pc ltc grid res [fire]) x).totalArea
      = if x ∈ cs ∧ x ∈ grid then fire.area_ha / cs.length else 0 := by
    intro x
    rw [hbin,
      (UseFireData.distributeToCells_apply grid (fire.area_ha / cs.length) fire cs h5
        (fun _ => UseFireData.CellAgg.zero) x).1]
    simp [UseFireData.CellAgg.zero]
  have hmapeq : grid.map (fun c =>
      ((UseFireData.addFireDataToMap pc ltc grid res [fire]) c).totalArea)
      = grid.map (fun c => if c ∈ cs then fire.area_ha / cs.length else 0) := by
    apply List.map_congr_left
    intro a ha
    rw [hval a]
    by_cases hac : a ∈ cs
    · simp [hac, ha]
    · simp [hac]
  refine ⟨?_, ?_, ?_⟩
  · intro c hc hcg
    rw [hval c]
    simp [hc, hcg]
  · rw [hmapeq, UseFireData.sum_ite_count (fire.area_ha / cs.length) cs grid]
  · intro h7
    rw [hmapeq, UseFireData.sum_ite_mem (fire.area_ha / cs.length) cs h5 grid h7 h6]
    have hn : (cs.length : ℚ) ≠ 0 :=
      Nat.cast_ne_zero.mpr (List.length_pos.mpr h4).ne'
    rw [mul_comm, div_mul_cancel₀ _ hn]

/-- Witness for C2: a 10 ha fire whose polygon intersects cells a and b
contributes exactly 5 ha to cell a both on the full grid containing a and
b — where the total attributed is 10 — and on the cropped grid containing
only a, where the total attributed is 5. -/
theorem C2_area_split_conservation_witness :
    ((["a", "b"].map (fun c =>
        ((UseFireData.addFireDataToMap (fun _ _ => some ["a", "b"])
          (fun _ _ _ => ("z")) ["a", "b"] 6
          [⟨1, some [[[(0, 0)]]], (0, 0), 10⟩]) c).totalArea)).sum = 10) ∧
    ((UseFireData.addFireDataToMap (fun _ _ => some ["a", "b"])
        (fun _ _ _ => ("z")) ["a", "b"] 6
        [⟨1, some [[[(0, 0)]]], (0, 0), 10⟩]) ("a")).totalArea = 5 ∧
    ((UseFireData.addFireDataToMap (fun _ _ => some ["a", "b"])
        (fun _ _ _ => ("z")) ["a"] 6
        [⟨1, some [[[(0, 0)]]], (0, 0), 10⟩]) ("a")).totalArea = 5 ∧
    ((["a"].map (fun c =>
        ((UseFireData.addFireDataToMap (fun _ _ => some ["a", "b"])
          (fun _ _ _ => ("z")) ["a"] 6
          [⟨1, some [[[(0, 0)]]], (0, 0), 10⟩]) c).totalArea)).sum
      = ((["a"].filter (fun c => c ∈ ["a", "b"])).length : ℚ) * (10 / 2)) := by
  have hfull := C2_area_split_conservation (fun _ _ => some ["a", "b"])
    (fun _ _ _ => ("z")) ["a", "b"] 6 ⟨1, some [[[(0, 0)]]], (0, 0), 10⟩
    [[[(0, 0)]]] ["a", "b"] rfl (by norm_num) rfl (by simp) (by simp) (by simp)
  have hcrop := C2_area_split_conservation (fun _ _ => some ["a", "b"])
    (fun _ _ _ => ("z")) ["a"] 6 ⟨1, some [[[(0, 0)]]], (0, 0), 10⟩
    [[[(0, 0)]]] ["a", "b"] rfl (by norm_num) rfl (by simp) (by simp) (by simp)
  refine ⟨hfull.2.2 (fun c hc => hc), ?_, ?_, ?_⟩
  · have hb := hfull.1 ("a") (by simp) (by simp)
    rw [hb]
    norm_num
  · have hb := hcrop.1 ("a") (by simp) (by simp)
    rw [hb]
    norm_num
  · have hb := hcrop.2.1
    rw [hb]
    norm_num

/-- Counterexample to C2 as stated: on a grid holding only cell a, a 10 ha
fire whose polygon intersects cells a and b has only 5 ha attributed —
the contribution aimed at the absent cell b is dropped, so the per-record
sum over grid cells is not `area_ha`. -/
theorem C2_area_split_conservation_counterexample :
    ¬ ((["a"].map (fun c =>
        ((UseFireData.addFireDataToMap (fun _ _ => some ["a", "b"])
          (fun _ _ _ => ("z")) ["a"] 6
          [⟨1, some [[[(0, 0)]]], (0, 0), 10⟩]) c).totalArea)).sum
      = (⟨1, some [[[(0, 0)]]], (0, 0), 10⟩ : FireData).area_ha) := by
  intro h
  have hne : ("b" : String) ≠ ("a" : String) := by decide
  norm_num [UseFireData.addFireDataToMap, UseFireData.binFire,
    UseFireData.distributeToCells, UseFireData.addContribution,
    UseFireData.swapShapeCoords, UseFireData.CellAgg.zero, hne] at h

/-- **C9.** `resolutionForZoom` is a pure total function on zoom levels:
every zoom below 9 maps to resolution 6 and every zoom at least 9 maps to
resolution 7; the frontend (`useHexagonGrid.ts`) and backend
(`hexagonGridService.ts`) implementations agree on every input.  (Totality
and absence of side effects are inherent in the Lean functions.) -/
theorem C9_resolutionForZoom (zoom : ℚ) :
    (zoom < 9 → UseHexagonGrid.getResolutionForZoom zoom = 6 ∧
      HexagonGridService.getResolutionForZoom zoom = 6) ∧
    (9 ≤ zoom → UseHexagonGrid.getResolutionForZoom zoom = 7 ∧
      HexagonGridService.getResolutionForZoom zoom = 7) ∧
    UseHexagonGrid.getResolutionForZoom zoom =
      HexagonGridService.getResolutionForZoom zoom := by
  unfold UseHexagonGrid.getResolutionForZoom HexagonGridService.getResolutionForZoom
  refine ⟨fun h => ?_, fun h => ?_, rfl⟩
  · simp [h]
  · simp [not_lt.mpr h]

/-- Witness for C9 at the concrete zoom levels 5 and 9. -/
theorem C9_resolutionForZoom_witness :
    (UseHexagonGrid.getResolutionForZoom 5 = 6 ∧
      HexagonGridService.getResolutionForZoom 5 = 6) ∧
    (UseHexagonGrid.getResolutionForZoom 9 = 7 ∧
      HexagonGridService.getResolutionForZoom 9 = 7) :=
  ⟨(C9_resolutionForZoom 5).1 (by norm_num),
    (C9_resolutionForZoom 9).2.1 (by norm_num)⟩

/-- **C1.** The size class of an aggregated cell is a function of its
`totalArea` and `fireCount` alone: `fireCount = 0` yields `none`
irrespective of the area; otherwise `<10 → small`, `[10,100) → medium`,
`≥100 → large`.  The frontend and backend `getFireSize` agree everywhere,
and the boundary values 9.999, 10.0, 99.999, 100.0 classify as
small, medium, medium, large. -/
theorem C1_sizeClass :
    (∀ agg : UseFireData.CellAgg,
      (agg.fireCount = 0 → (UseFireData.finalizeCell agg).size = FireSize.none) ∧
      (1 ≤ agg.fireCount →
        (agg.totalArea < 10 →
          (UseFireData.finalizeCell agg).size = FireSize.small) ∧
        (10 ≤ agg.totalArea → agg.totalArea < 100 →
          (UseFireData.finalizeCell agg).size = FireSize.medium) ∧
        (100 ≤ agg.totalArea →
          (UseFireData.finalizeCell agg).size = FireSize.large))) ∧
    (∀ area : ℚ, UseFireData.getFireSize area = CumulatedFireService.getFireSize area) ∧
    (UseFireData.finalizeCell ⟨9.999, 1, []⟩).size = FireSize.small ∧
    (UseFireData.finalizeCell ⟨10, 1, []⟩).size = FireSize.medium ∧
    (UseFireData.finalizeCell ⟨99.999, 1, []⟩).size = FireSize.medium ∧
    (UseFireData.finalizeCell ⟨100, 1, []⟩).size = FireSize.large := by
  refine ⟨fun agg => ⟨fun h0 => ?_, fun h1 => ⟨fun ha => ?_, fun ha hb => ?_, fun ha => ?_⟩⟩,
    fun area => rfl, ?_, ?_, ?_, ?_⟩
  · simp [UseFireData.finalizeCell, h0]
  · simp [UseFireData.finalizeCell, Nat.lt_of_lt_of_le Nat.zero_lt_one h1,
      UseFireData.getFireSize, ha]
  · simp [UseFireData.finalizeCell, Nat.lt_of_lt_of_le Nat.zero_lt_one h1,
      UseFireData.getFireSize, not_lt.mpr ha, hb]
  · have h10 : ¬ agg.totalArea < 10 := by linarith
    have h100 : ¬ agg.totalArea < 100 := by linarith
    simp [UseFireData.finalizeCell, Nat.lt_of_lt_of_le Nat.zero_lt_one h1,
      UseFireData.getFireSize, h10, h100]
  · norm_num [UseFireData.finalizeCell, UseFireData.getFireSize]
  · norm_num [UseFireData.finalizeCell, UseFireData.getFireSize]
  · norm_num [UseFireData.finalizeCell, UseFireData.getFireSize]
  · norm_num [UseFireData.finalizeCell, UseFireData.getFireSize]

/-- Witness for C1: a cell with a stale area of 500 but zero fires is
classified `none`, and a one-fire cell with area 50 is `medium`. -/
theorem C1_sizeClass_witness :
    (UseFireData.finalizeCell ⟨500, 0, []⟩).size = FireSize.none ∧
    (UseFireData.finalizeCell ⟨50, 1, []⟩).size = FireSize.medium :=
  ⟨(C1_sizeClass.1 ⟨500, 0, []⟩).1 rfl,
    ((C1_sizeClass.1 ⟨50, 1, []⟩).2 le_rfl).2.1 (by norm_num) (by norm_num)⟩

namespace CumulatedFireService

/-- The single loop of `calculateCumulatedFireData` increments `totalFires`
once and adds `area_ha` once per input record, for any starting
accumulator. -/
theorem calc_totals_aux (latLngToCell : ℚ → ℚ → ℤ → String) (res : ℤ) :
    ∀ (fires : List FireData) (init : List (String × HexEntry) × ℕ × ℚ),
      (fires.foldl (fun acc fire =>
          (addFireToHexagonByCentroid latLngToCell res fire acc.1,
            acc.2.1 + 1, acc.2.2 + fire.area_ha)) init).2.1
        = init.2.1 + fires.length ∧
      (fires.foldl (fun acc fire =>
          (addFireToHexagonByCentroid latLngToCell res fire acc.1,
            acc.2.1 + 1, acc.2.2 + fire.area_ha)) init).2.2
        = init.2.2 + (fires.map FireData.area_ha).sum := by
  intro fires
  induction fires with
  | nil => intro init; simp
  | cons f t ih =>
    intro init
    have h := ih (addFireToHexagonByCentroid latLngToCell res f init.1,
      init.2.1 + 1, init.2.2 + f.area_ha)
    refine ⟨?_, ?_⟩
    · rw [List.foldl_cons, h.1]; simp; omega
    · rw [List.foldl_cons, h.2]; simp; ring

end CumulatedFireService

/-- **C3.** `totalFires` and `totalArea` of the cumulated aggregation result
are computed over the input record set — count and area sum of the inputs —
for every centroid-resolution function, i.e. independently of how (or
whether) each record lands in a grid cell. -/
theorem C3_totals_over_input (latLngToCell : ℚ → ℚ → ℤ → String) (res : ℤ)
    (fires : List FireData) :
    (CumulatedFireService.calculateCumulatedFireData latLngToCell res fires).totalFires
      = fires.length ∧
    (CumulatedFireService.calculateCumulatedFireData latLngToCell res fires).totalArea
      = (fires.map FireData.area_ha).sum := by
  have h := CumulatedFireService.calc_totals_aux latLngToCell res fires ([], 0, 0)
  unfold CumulatedFireService.calculateCumulatedFireData
  dsimp only
  refine ⟨?_, ?_⟩
  · rw [h.1]; simp
  · rw [h.2]; simp

/-- **C6.** A region whose covering is empty (e.g. a viewport wholly outside
the covered territory) yields a grid with an empty cell set, without any
error: `generateHexagonGridForViewport` is total and returns the
empty-hexagon grid whenever `polygonToCells` returns no cells. -/
theorem C6_empty_region (polyToCells : List (List (ℚ × ℚ)) → ℤ → List String)
    (cellToBoundary : String → List (ℚ × ℚ)) (res : ℤ)
    (v : HexagonGridService.Viewport)
    (h : polyToCells (HexagonGridService.viewportPolygon v) res = []) :
    HexagonGridService.generateHexagonGridForViewport polyToCells cellToBoundary res v
      = ⟨res, []⟩ := by
  unfold HexagonGridService.generateHexagonGridForViewport
  rw [h]
  rfl

/-- **C7.** A resolution outside 0–15 makes `getHexagonGridForSpain` and the
cumulated-fires route fail with the validation error before any covering or
binning computation: the failing results are constants, independent of the
covering function, the cache and the records.  Within 0–15 no resolution
validation error is raised (the route succeeds whenever its date inputs are
well-formed). -/
theorem C7_resolution_validation (res : ℤ) :
    ((res < 0 ∨ 15 < res) →
      (∀ pc cb cache, HexagonGridService.getHexagonGridForSpain pc cb res cache
        = Except.error ("Invalid resolution. Must be between 0 and 15.")) ∧
      (∀ ltc₁ ltc₂ sd ed fires₁ fires₂,
        CumulatedFireRoutes.cumulatedFiresRoute ltc₁ sd ed res fires₁
          = CumulatedFireRoutes.cumulatedFiresRoute ltc₂ sd ed res fires₂) ∧
      (∀ ltc sd ed fires,
        (CumulatedFireRoutes.cumulatedFiresRoute ltc sd ed res fires).isOk = false)) ∧
    (0 ≤ res → res ≤ 15 →
      (∀ pc cb cache,
        (HexagonGridService.getHexagonGridForSpain pc cb res cache).isOk = true) ∧
      (∀ ltc sd ed fires, CumulatedFireRoutes.isValidDateFormat sd = true →
        CumulatedFireRoutes.isValidDateFormat ed = true →
        (CumulatedFireRoutes.cumulatedFiresRoute ltc sd ed res fires).isOk = true)) := by
  constructor
  · intro h
    refine ⟨fun pc cb cache => ?_, fun ltc₁ ltc₂ sd ed fires₁ fires₂ => ?_,
      fun ltc sd ed fires => ?_⟩
    · unfold HexagonGridService.getHexagonGridForSpain
      rw [if_pos h]
    · unfold CumulatedFireRoutes.cumulatedFiresRoute
      by_cases hd : (CumulatedFireRoutes.isValidDateFormat sd : Prop) ∧
          (CumulatedFireRoutes.isValidDateFormat ed : Prop)
      · rw [if_neg (not_not_intro hd), if_neg (not_not_intro hd), if_pos h, if_pos h]
      · rw [if_pos hd, if_pos hd]
    · unfold CumulatedFireRoutes.cumulatedFiresRoute
      by_cases hd : (CumulatedFireRoutes.isValidDateFormat sd : Prop) ∧
          (CumulatedFireRoutes.isValidDateFormat ed : Prop)
      · rw [if_neg (not_not_intro hd), if_pos h]; rfl
      · rw [if_pos hd]; rfl
  · intro h0 h15
    have hcond : ¬ (res < 0 ∨ 15 < res) := by omega
    refine ⟨fun pc cb cache => ?_, fun ltc sd ed fires hsd hed => ?_⟩
    · unfold HexagonGridService.getHexagonGridForSpain
      rw [if_neg hcond]
      cases hc : cache res <;> rfl
    · unfold CumulatedFireRoutes.cumulatedFiresRoute
      rw [if_neg (not_not_intro ⟨by rw [hsd], by rw [hed]⟩), if_neg hcond]
      rfl

/-- Witness for C7: resolution 16 is rejected by both entry points while
resolution 7 passes both (with well-formed dates). -/
theorem C7_resolution_validation_witness :
    ((16 : ℤ) < 0 ∨ 15 < (16 : ℤ)) ∧
    HexagonGridService.getHexagonGridForSpain (fun _ _ => []) (fun _ => []) 16
      (fun _ => Option.none)
      = Except.error ("Invalid resolution. Must be between 0 and 15.") ∧
    (CumulatedFireRoutes.cumulatedFiresRoute (fun _ _ _ => ("x")) ("2025-01-01")
      ("2025-02-01") 16 []).isOk = false ∧
    (HexagonGridService.getHexagonGridForSpain (fun _ _ => []) (fun _ => []) 7
      (fun _ => Option.none)).isOk = true ∧
    (CumulatedFireRoutes.cumulatedFiresRoute (fun _ _ _ => ("x")) ("2025-01-01")
      ("2025-02-01") 7 []).isOk = true := by
  have h16 := C7_resolution_validation 16
  have h7 := C7_resolution_validation 7
  refine ⟨by norm_num, ?_, ?_, ?_, ?_⟩
  · exact (h16.1 (by norm_num)).1 (fun _ _ => []) (fun _ => []) (fun _ => Option.none)
  · exact (h16.1 (by norm_num)).2.2 (fun _ _ _ => ("x")) ("2025-01-01") ("2025-02-01") []
  · exact (h7.2 (by norm_num) (by norm_num)).1 (fun _ _ => []) (fun _ => [])
      (fun _ => Option.none)
  · exact (h7.2 (by norm_num) (by norm_num)).2 (fun _ _ _ => ("x")) ("2025-01-01")
      ("2025-02-01") [] rfl rfl

/-- **C8.** Cache idempotence of the grid getters: once a first call's
result has been persisted, a second call with the same inputs returns
exactly the same grid (hence the same cell-id set) and leaves the cache
unchanged — for the Spain getter and for the viewport getter. -/
theorem C8_cache_idempotent :
    (∀ pc cb (res : ℤ) cache g c,
      HexagonGridService.getHexagonGridForSpain pc cb res cache = Except.ok (g, c) →
      HexagonGridService.getHexagonGridForSpain pc cb res c = Except.ok (g, c)) ∧
    (∀ pc cb (zoom : ℚ) v cache,
      HexagonGridService.getHexagonGridForViewport pc cb zoom v
          (HexagonGridService.getHexagonGridForViewport pc cb zoom v cache).2
        = HexagonGridService.getHexagonGridForViewport pc cb zoom v cache) := by
  constructor
  · intro pc cb res cache g c h
    unfold HexagonGridService.getHexagonGridForSpain at h ⊢
    by_cases hv : res < 0 ∨ 15 < res
    · rw [if_pos hv] at h; simp at h
    · rw [if_neg hv] at h ⊢
      cases hc : cache res with
      | some g0 =>
        rw [hc] at h
        simp at h
        obtain ⟨rfl, rfl⟩ := h
        rw [hc]
      | none =>
        rw [hc] at h
        simp at h
        obtain ⟨rfl, rfl⟩ := h
        simp
  · intro pc cb zoom v cache
    unfold HexagonGridService.getHexagonGridForViewport
    dsimp only
    cases hc : cache (HexagonGridService.getResolutionForZoom zoom,
        HexagonGridService.viewportKey v) with
    | some g0 => simp [hc]
    | none => simp [hc]

/-- Witness for C8: with the resolution-6 Spain grid already persisted, a
call is a cache hit and a repeated call returns the identical result. -/
theorem C8_cache_idempotent_witness :
    HexagonGridService.getHexagonGridForSpain (fun _ _ => []) (fun _ => []) 6
        (fun r => if r = 6 then some ⟨6, []⟩ else Option.none)
      = Except.ok ((⟨6, []⟩ : HexagonGridService.HexagonGrid),
        fun r => if r = 6 then some ⟨6, []⟩ else Option.none) ∧
    HexagonGridService.getHexagonGridForSpain (fun _ _ => []) (fun _ => []) 6
        (fun r => if r = 6 then some ⟨6, []⟩ else Option.none)
      = Except.ok ((⟨6, []⟩ : HexagonGridService.HexagonGrid),
        fun r => if r = 6 then some ⟨6, []⟩ else Option.none) :=
  ⟨rfl, C8_cache_idempotent.1 (fun _ _ => []) (fun _ => []) 6
    (fun r => if r = 6 then some ⟨6, []⟩ else Option.none) ⟨6, []⟩
    (fun r => if r = 6 then some ⟨6, []⟩ else Option.none) rfl⟩

/-- Witness for C6: a covering that returns no cells for a viewport in the
middle of the Atlantic produces the empty grid at resolution 6. -/
theorem C6_empty_region_witness :
    (fun _ _ => ([] : List String)) (HexagonGridService.viewportPolygon ⟨30, 29, -40, -41⟩) 6 = [] ∧
    HexagonGridService.generateHexagonGridForViewport (fun _ _ => [])
      (fun _ => []) 6 ⟨30, 29, -40, -41⟩ = ⟨6, []⟩ :=
  ⟨rfl, C6_empty_region (fun _ _ => []) (fun _ => []) 6 ⟨30, 29, -40, -41⟩ rfl⟩

namespace CumulatedFireService

/-- A key is looked up successfully iff it occurs among the object's keys. -/
theorem lookupEntry_isSome_iff (k : String) :
    ∀ (hd : List (String × HexEntry)),
      (lookupEntry hd k).isSome = true ↔ k ∈ hd.map Prod.fst := by
  intro hd
  induction hd with
  | nil => simp [lookupEntry]
  | cons p t ih =>
    by_cases hp : p.1 = k <;> simp [lookupEntry, hp, ih]
    exact fun h => (hp h.symm).elim

/-- The in-place mutation leaves the key sequence unchanged. -/
theorem updateEntries_keys (h3 : String) (a : ℚ) (fid : String)
    (hd : List (String × HexEntry)) :
    (updateEntries h3 a fid hd).map Prod.fst = hd.map Prod.fst := by
  unfold updateEntries
  rw [List.map_map]
  apply List.map_congr_left
  intro p _
  by_cases h : p.1 = h3 <;> simp [h]

/-- The in-place mutation is the identity when the key is absent. -/
theorem updateEntries_outside (h3 : String) (a : ℚ) (fid : String) :
    ∀ (hd : List (String × HexEntry)), h3 ∉ hd.map Prod.fst →
      updateEntries h3 a fid hd = hd := by
  intro hd
  induction hd with
  | nil => intro _; rfl
  | cons p t ih =>
    intro hout
    have hp : p.1 ≠ h3 := by
      intro h
      exact hout (by simp [h])
    have ht : h3 ∉ t.map Prod.fst := by
      intro h
      exact hout (by simp [h])
    simp only [updateEntries, List.map_cons, if_neg hp]
    have := ih ht
    unfold updateEntries at this
    rw [this]

/-- Mutating a present key (keys duplicate-free) adds exactly one fire count
and `a` area to the object's sums. -/
theorem updateEntries_sums (h3 : String) (a : ℚ) (fid : String) :
    ∀ (hd : List (String × HexEntry)), (hd.map Prod.fst).Nodup →
      (lookupEntry hd h3).isSome = true →
      sumCounts (updateEntries h3 a fid hd) = sumCounts hd + 1 ∧
      sumAreas (updateEntries h3 a fid hd) = sumAreas hd + a := by
  intro hd
  induction hd with
  | nil => intro _ h; simp [lookupEntry] at h
  | cons p t ih =>
    intro hnd hs
    have hnd2 : (p.1 :: t.map Prod.fst).Nodup := by
      rw [List.map_cons] at hnd
      exact hnd
    have hnd' : (t.map Prod.fst).Nodup := (List.nodup_cons.mp hnd2).2
    by_cases hp : p.1 = h3
    · have hout : h3 ∉ t.map Prod.fst := by
        have h := (List.nodup_cons.mp hnd2).1
        rw [hp] at h
        exact h
      have htail := updateEntries_outside h3 a fid t hout
      simp only [updateEntries, List.map_cons, if_pos hp]
      unfold updateEntries at htail
      rw [htail]
      constructor
      · simp [sumCounts]
        omega
      · simp [sumAreas]
        ring
    · have hs' : (lookupEntry t h3).isSome = true := by
        simpa [lookupEntry, hp] using hs
      obtain ⟨h1, h2⟩ := ih hnd' hs'
      unfold updateEntries at h1 h2 ⊢
      simp only [List.map_cons, if_neg hp]
      constructor
      · simp only [sumCounts, List.map_cons, List.sum_cons] at h1 ⊢
        omega
      · simp only [sumAreas, List.map_cons, List.sum_cons] at h2 ⊢
        rw [h2]
        ring

/-- One backend binning step: preserves key uniqueness and entry
positivity, and adds exactly one fire count and the record's full
`area_ha` to the object's sums. -/
theorem addFire_step (ltc : ℚ → ℚ → ℤ → String) (res : ℤ) (fire : FireData)
    (hd : List (String × HexEntry)) (hk : (hd.map Prod.fst).Nodup) :
    ((addFireToHexagonByCentroid ltc res fire hd).map Prod.fst).Nodup ∧
    sumCounts (addFireToHexagonByCentroid ltc res fire hd) = sumCounts hd + 1 ∧
    sumAreas (addFireToHexagonByCentroid ltc res fire hd)
      = sumAreas hd + fire.area_ha ∧
    ((∀ p ∈ hd, 1 ≤ p.2.fireCount) →
      ∀ p ∈ addFireToHexagonByCentroid ltc res fire hd, 1 ≤ p.2.fireCount) := by
  unfold addFireToHexagonByCentroid
  dsimp only
  by_cases hs :
      (lookupEntry hd (ltc fire.centroid.2 fire.centroid.1 res)).isSome = true
  · rw [if_pos hs]
    obtain ⟨hc, ha⟩ := updateEntries_sums (ltc fire.centroid.2 fire.centroid.1 res)
      fire.area_ha (toString fire.id) hd hk hs
    refine ⟨?_, hc, ha, ?_⟩
    · rw [updateEntries_keys]
      exact hk
    · intro hp q hq
      unfold updateEntries at hq
      obtain ⟨p, hpm, rfl⟩ := List.mem_map.mp hq
      by_cases hph : p.1 = ltc fire.centroid.2 fire.centroid.1 res
      · simp [hph]
      · simp only [if_neg hph]
        exact hp p hpm
  · rw [if_neg hs]
    have hout : ltc fire.centroid.2 fire.centroid.1 res ∉ hd.map Prod.fst := by
      rw [← lookupEntry_isSome_iff]
      simpa using hs
    refine ⟨?_, ?_, ?_, ?_⟩
    · rw [List.map_append, List.nodup_append]
      refine ⟨hk, by simp, ?_⟩
      intro x hx hx'
      simp at hx'
      rw [hx'] at hx
      exact hout hx
    · simp [sumCounts]
    · simp [sumAreas]
    · intro hp q hq
      rcases List.mem_append.mp hq with h | h
      · exact hp q h
      · rw [List.mem_singleton.mp h]

/-- Invariants of the whole backend binning loop, relative to any starting
object with duplicate-free keys and positive counts. -/
theorem addFire_fold_inv (ltc : ℚ → ℚ → ℤ → String) (res : ℤ) :
    ∀ (fires : List FireData) (hd : List (String × HexEntry)),
      (hd.map Prod.fst).Nodup → (∀ p ∈ hd, 1 ≤ p.2.fireCount) →
      (((fires.foldl (fun acc fire =>
          addFireToHexagonByCentroid ltc res fire acc) hd).map Prod.fst).Nodup ∧
      (∀ p ∈ fires.foldl (fun acc fire =>
          addFireToHexagonByCentroid ltc res fire acc) hd, 1 ≤ p.2.fireCount) ∧
      sumCounts (fires.foldl (fun acc fire =>
          addFireToHexagonByCentroid ltc res fire acc) hd)
        = sumCounts hd + fires.length ∧
      sumAreas (fires.foldl (fun acc fire =>
          addFireToHexagonByCentroid ltc res fire acc) hd)
        = sumAreas hd + (fires.map FireData.area_ha).sum) := by
  intro fires
  induction fires with
  | nil =>
    intro hd h1 h2
    refine ⟨h1, h2, by simp, by simp⟩
  | cons f t ih =>
    intro hd h1 h2
    obtain ⟨s1, s2, s3, s4⟩ := addFire_step ltc res f hd h1
    obtain ⟨i1, i2, i3, i4⟩ := ih (addFireToHexagonByCentroid ltc res f hd) s1 (s4 h2)
    refine ⟨i1, i2, ?_, ?_⟩
    · rw [List.foldl_cons, i3, s2]
      simp
      omega
    · rw [List.foldl_cons, i4, s3]
      simp
      ring

/-- The `hexagonData` component of the combined loop equals the plain
binning fold (the totals ride along unchanged). -/
theorem calc_fold_fst (ltc : ℚ → ℚ → ℤ → String) (res : ℤ) :
    ∀ (fires : List FireData) (init : List (String × HexEntry) × ℕ × ℚ),
      (fires.foldl (fun acc fire =>
        (addFireToHexagonByCentroid ltc res fire acc.1,
          acc.2.1 + 1, acc.2.2 + fire.area_ha)) init).1
      = fires.foldl (fun acc fire =>
          addFireToHexagonByCentroid ltc res fire acc) init.1 := by
  intro fires
  induction fires with
  | nil => intro init; rfl
  | cons f t ih =>
    intro init
    rw [List.foldl_cons, List.foldl_cons, ih]

/-- The final size-classification pass leaves keys, counts and areas of
every entry unchanged. -/
theorem tag_preserves (hd : List (String × HexEntry)) :
    sumCounts (hd.map (fun p =>
      (p.1, { p.2 with size := getFireSize p.2.totalArea }))) = sumCounts hd ∧
    sumAreas (hd.map (fun p =>
      (p.1, { p.2 with size := getFireSize p.2.totalArea }))) = sumAreas hd ∧
    (∀ q ∈ hd.map (fun p =>
        (p.1, { p.2 with size := getFireSize p.2.totalArea })),
      ∃ p ∈ hd, q.2.fireCount = p.2.fireCount) := by
  refine ⟨?_, ?_, ?_⟩
  · unfold sumCounts
    rw [List.map_map]
    rfl
  · unfold sumAreas
    rw [List.map_map]
    rfl
  · intro q hq
    obtain ⟨p, hp, rfl⟩ := List.mem_map.mp hq
    exact ⟨p, hp, rfl⟩

end CumulatedFireService

/-- **C10.** Invariants of every backend cumulated aggregation result:
every emitted per-cell entry has `fireCount ≥ 1`, the entry fire counts sum
to `totalFires`, and the entry areas sum to `totalArea` — centroid binning
assigns each input record to exactly one cell and never drops a record. -/
theorem C10_backend_result_invariants (ltc : ℚ → ℚ → ℤ → String) (res : ℤ)
    (fires : List FireData) :
    (∀ p ∈ (CumulatedFireService.calculateCumulatedFireData ltc res fires).hexagonData,
      1 ≤ p.2.fireCount) ∧
    CumulatedFireService.sumCounts
        (CumulatedFireService.calculateCumulatedFireData ltc res fires).hexagonData
      = (CumulatedFireService.calculateCumulatedFireData ltc res fires).totalFires ∧
    CumulatedFireService.sumAreas
        (CumulatedFireService.calculateCumulatedFireData ltc res fires).hexagonData
      = (CumulatedFireService.calculateCumulatedFireData ltc res fires).totalArea := by
  unfold CumulatedFireService.calculateCumulatedFireData
  dsimp only
  rw [CumulatedFireService.calc_fold_fst]
  have hinv := CumulatedFireService.addFire_fold_inv ltc res fires []
    (by simp) (by simp)
  have htot := CumulatedFireService.calc_totals_aux ltc res fires ([], 0, 0)
  obtain ⟨k1, k2, k3, k4⟩ := hinv
  obtain ⟨t1, t2, t3⟩ := CumulatedFireService.tag_preserves
    (fires.foldl (fun acc fire =>
      CumulatedFireService.addFireToHexagonByCentroid ltc res fire acc) [])
  refine ⟨?_, ?_, ?_⟩
  · intro q hq
    obtain ⟨p, hp, hep⟩ := t3 q hq
    rw [hep]
    exact k2 p hp
  · rw [t1, k3, htot.1]
    simp [CumulatedFireService.sumCounts]
  · rw [t2, k4, htot.2]
    simp [CumulatedFireService.sumAreas]

/-- **C4 (amended).** Polygon-first binning with centroid fallback holds for
the frontend snapshot aggregation: a record with usable polygon coordinates
whose `polygonToCells` call succeeds is split evenly (`area_ha / |cells|`)
over the listed cells with a fire-count increment each (cells absent from
the grid skipped), and centroid binning is used exactly when the polygon is
missing/empty or the call throws.  The backend cumulative date-range
aggregation, by contrast, bins every record by centroid only: its step
never consults the record's polygon. -/
theorem C4_polygon_binning :
    (∀ (pc : Shape → ℤ → Option (List String)) (ltc : ℚ → ℚ → ℤ → String)
        (grid : List String) (res : ℤ) (m : UseFireData.CellMap)
        (fire : FireData) (s : Shape) (cs : List String),
      fire.shape = some s → 0 < s.length →
      pc (UseFireData.swapShapeCoords s) res = some cs →
      UseFireData.binFire pc ltc grid res m fire
        = UseFireData.distributeToCells grid (fire.area_ha / cs.length) fire cs m) ∧
    (∀ (pc : Shape → ℤ → Option (List String)) (ltc : ℚ → ℚ → ℤ → String)
        (grid : List String) (res : ℤ) (m : UseFireData.CellMap)
        (fire : FireData),
      (fire.shape = Option.none ∨ fire.shape = some [] ∨
        (∃ s, fire.shape = some s ∧
          pc (UseFireData.swapShapeCoords s) res = Option.none)) →
      UseFireData.binFire pc ltc grid res m fire
        = UseFireData.binFireCentroid ltc grid res m fire) ∧
    (∀ (ltc : ℚ → ℚ → ℤ → String) (res : ℤ) (fire : FireData)
        (hd : List (String × CumulatedFireService.HexEntry)),
      CumulatedFireService.addFireToHexagonByCentroid ltc res fire hd
        = CumulatedFireService.addFireToHexagonByCentroid ltc res
            ⟨fire.id, Option.none, fire.centroid, fire.area_ha⟩ hd) := by
  refine ⟨?_, ?_, ?_⟩
  · intro pc ltc grid res m fire s cs h1 h2 h3
    simp [UseFireData.binFire, h1, h2, h3]
  · intro pc ltc grid res m fire h
    rcases h with h | h | ⟨s, hs, hpc⟩
    · simp [UseFireData.binFire, h]
    · simp [UseFireData.binFire, h]
    · simp [UseFireData.binFire, hs, hpc]
  · intro ltc res fire hd
    rfl

/-- Witness for C4: the split equation on one concrete polygon record, the
centroid fallback on one erroring covering call, and the backend's
polygon-blindness on one record. -/
theorem C4_polygon_binning_witness :
    (UseFireData.binFire (fun _ _ => some ["a"]) (fun _ _ _ => ("z")) ["a"] 6
        (fun _ => UseFireData.CellAgg.zero) ⟨1, some [[[(0, 0)]]], (0, 0), 10⟩
      = UseFireData.distributeToCells ["a"]
          ((⟨1, some [[[(0, 0)]]], (0, 0), 10⟩ : FireData).area_ha
            / (["a"] : List String).length)
          ⟨1, some [[[(0, 0)]]], (0, 0), 10⟩ ["a"]
          (fun _ => UseFireData.CellAgg.zero)) ∧
    (UseFireData.binFire (fun _ _ => Option.none) (fun _ _ _ => ("z")) ["a"] 6
        (fun _ => UseFireData.CellAgg.zero) ⟨2, some [[[(0, 0)]]], (0, 0), 10⟩
      = UseFireData.binFireCentroid (fun _ _ _ => ("z")) ["a"] 6
          (fun _ => UseFireData.CellAgg.zero) ⟨2, some [[[(0, 0)]]], (0, 0), 10⟩) ∧
    (CumulatedFireService.addFireToHexagonByCentroid (fun _ _ _ => ("x")) 6
        ⟨3, some [[[(0, 0)]]], (0, 0), 7⟩ []
      = CumulatedFireService.addFireToHexagonByCentroid (fun _ _ _ => ("x")) 6
        ⟨3, Option.none, (0, 0), 7⟩ []) :=
  ⟨C4_polygon_binning.1 (fun _ _ => some ["a"]) (fun _ _ _ => ("z")) ["a"] 6
      (fun _ => UseFireData.CellAgg.zero) ⟨1, some [[[(0, 0)]]], (0, 0), 10⟩
      [[[(0, 0)]]] ["a"] rfl (by norm_num) rfl,
    C4_polygon_binning.2.1 (fun _ _ => Option.none) (fun _ _ _ => ("z")) ["a"] 6
      (fun _ => UseFireData.CellAgg.zero) ⟨2, some [[[(0, 0)]]], (0, 0), 10⟩
      (Or.inr (Or.inr ⟨[[[(0, 0)]]], rfl, rfl⟩)),
    C4_polygon_binning.2.2 (fun _ _ _ => ("x")) 6 ⟨3, some [[[(0, 0)]]], (0, 0), 7⟩ []⟩

/-- Counterexample to C4 as stated: in the cumulative date-range
aggregation, a record **with** polygon geometry is not split over the cells
its polygon intersects — the full 10 ha land on the single centroid cell,
and the result is identical to that of the same record stripped of its
polygon. -/
theorem C4_polygon_binning_counterexample :
    (CumulatedFireService.calculateCumulatedFireData (fun _ _ _ => ("x")) 6
        [⟨1, some [[[(1, 1), (2, 2), (3, 3)]]], (0, 0), 10⟩]).hexagonData
      = [(("x"), ⟨10, 1, [toString (1 : ℕ)], FireSize.medium⟩)] ∧
    (⟨1, some [[[(1, 1), (2, 2), (3, 3)]]], (0, 0), 10⟩ : FireData).shape
      ≠ Option.none ∧
    CumulatedFireService.calculateCumulatedFireData (fun _ _ _ => ("x")) 6
        [⟨1, some [[[(1, 1), (2, 2), (3, 3)]]], (0, 0), 10⟩]
      = CumulatedFireService.calculateCumulatedFireData (fun _ _ _ => ("x")) 6
        [⟨1, Option.none, (0, 0), 10⟩] := by
  refine ⟨?_, by simp, rfl⟩
  norm_num [CumulatedFireService.calculateCumulatedFireData,
    CumulatedFireService.addFireToHexagonByCentroid,
    CumulatedFireService.lookupEntry, CumulatedFireService.getFireSize]

/-- **C5 (evaluation at the failing input).** The GeoJSON emitter swaps each
`cellToBoundary(index, false)` vertex from `[lat, lng]` to `[lng, lat]` but
never appends a closing vertex, so for a cell whose (library-open) boundary
ring has distinct first and last vertices the emitted Polygon ring is not
closed: its first vertex differs from its last. -/
theorem C5_unclosed_ring_eval :
    ((HexagonGridService.getHexagonGridAsGeoJSON (fun _ _ => [("cell1")])
        (fun _ => [(0, 0), (1, 0), (2, 1), (2, 2), (1, 3), (0, 2)]) 5
        ⟨1, 0, 1, 0⟩ (fun _ => Option.none)).1
      = [⟨[[(0, 0), (0, 1), (1, 2), (2, 2), (3, 1), (2, 0)]], ("cell1"), 6⟩]) ∧
    (([((0 : ℚ), (0 : ℚ)), (0, 1), (1, 2), (2, 2), (3, 1), (2, 0)]).head?
      ≠ ([((0 : ℚ), (0 : ℚ)), (0, 1), (1, 2), (2, 2), (3, 1), (2, 0)]).getLast?) := by
  constructor
  · norm_num [HexagonGridService.getHexagonGridAsGeoJSON,
      HexagonGridService.getHexagonGridForViewport,
      HexagonGridService.getResolutionForZoom,
      HexagonGridService.generateHexagonGridForViewport,
      HexagonGridService.gridFeatures, HexagonGridService.hexagonFeature]
  · norm_num [List.getLast?, Prod.ext_iff]
